import Mathlib

/-!
Verification of the cooperative peripheral-multiplexing loop of
`boards/rp-pico/examples/pico_usb_serial.rs`.

The embedding below translates, directly from the Rust source, the pieces
of `main` that the specified properties speak about: the byte transform of
the echo path, the write-retry loop with its LED toggling, the one-shot
banner latch `said_hello`, and a step machine for one iteration of the
main `loop`, with the environment (clock readings, one-wire search result,
transport poll/read/write outcomes, ADC result) supplied as an oracle per
iteration.  Fallible peripheral calls are `Except`/`Option` values; the
`unwrap` calls of the source map `error`/`none` to a terminal panicked
mode (the `panic_halt` handler halts the chip).
-/

namespace Pico

/-- Result of one `serial.write` call in the echo retry loop: `Ok(len)`
accepts a `len`-byte leading slice of the argument, `err` covers every
`Err(_)` (for example `WouldBlock` when the USB write buffer is full). -/
inductive WriteRes where
  | ok (len : Nat)
  | err
deriving DecidableEq, Repr

/-- How the echo write loop finished on a finite oracle of write outcomes:
`complete` means the suffix was emptied, `dropped` means an `Err(_)` hit the
`break` arm, `stillGoing` means the oracle ran out while the suffix was
still non-empty, i.e. the loop would keep running. -/
inductive LoopEnd where
  | complete
  | dropped
  | stillGoing
deriving DecidableEq, Repr

/-- Observable result of running the echo write loop: the bytes accepted by
the transport in order, the final `pin_state`, and how the loop ended. -/
structure EchoRun where
  delivered : List Nat
  led : Bool
  ended : LoopEnd
deriving DecidableEq, Repr

/-- The echo write-retry loop of lines 233-246: starting from the
transformed chunk as `wr_ptr`, each `Ok(len)` drops the accepted `len`-byte
prefix and executes `pin_state = !pin_state; led_pin.set_state(pin_state)`,
each `Err(_)` breaks and drops the rest, and the loop exits normally once
`wr_ptr` is empty. -/
def echoWrite : List Nat → List WriteRes → Bool → EchoRun
  | [], _, led => ⟨[], led, LoopEnd.complete⟩
  | _ :: _, [], led => ⟨[], led, LoopEnd.stillGoing⟩
  | a :: s, WriteRes.ok len :: rest, led =>
      ⟨(a :: s).take len ++ (echoWrite ((a :: s).drop len) rest (!led)).delivered,
       (echoWrite ((a :: s).drop len) rest (!led)).led,
       (echoWrite ((a :: s).drop len) rest (!led)).ended⟩
  | _ :: _, WriteRes.err :: _, led => ⟨[], led, LoopEnd.dropped⟩

/-- Number of `Ok(_)` write results the loop actually processes; each such
result runs the `pin_state = !pin_state` toggle, whatever `len` is. -/
def okCount : List Nat → List WriteRes → Nat
  | [], _ => 0
  | _ :: _, [] => 0
  | a :: s, WriteRes.ok len :: rest => okCount ((a :: s).drop len) rest + 1
  | _ :: _, WriteRes.err :: _ => 0

/-- Number of processed write results that accepted a non-zero count. -/
def nonzeroOkCount : List Nat → List WriteRes → Nat
  | [], _ => 0
  | _ :: _, [] => 0
  | a :: s, WriteRes.ok len :: rest =>
      nonzeroOkCount ((a :: s).drop len) rest + (if 0 < len then 1 else 0)
  | _ :: _, WriteRes.err :: _ => 0

/-- The retry loop, run against the infinite outcome stream `f`, terminates:
some finite prefix of the stream already empties the suffix or hits an
error. -/
def terminatesOn (chunk : List Nat) (f : Nat → WriteRes) : Prop :=
  ∃ n, (echoWrite chunk ((List.range n).map f) false).ended ≠ LoopEnd.stillGoing

/-- Rust core's `u8::make_ascii_uppercase`, applied to each byte of the
read chunk at lines 229-231: ASCII lowercase letters have bit 0x20 (which
is set for them) cleared via xor; every other byte passes through. -/
def make_ascii_uppercase (b : Nat) : Nat :=
  if 97 ≤ b ∧ b ≤ 122 then b ^^^ 32 else b

/-- Whether a byte is an ASCII letter (either case). -/
def isAsciiLetter (b : Nat) : Bool :=
  decide (65 ≤ b ∧ b ≤ 90) || decide (97 ≤ b ∧ b ≤ 122)

/-- The banner condition of line 157:
`!said_hello && timer.get_counter().ticks() >= 5_000_000`. -/
def bannerFires (saidHello : Bool) (tick : Nat) : Bool :=
  !saidHello && decide (5000000 ≤ tick)

/-- The `said_hello` flag after one evaluation of the banner block; line
158 sets it exactly when the check fires. -/
def bannerNext (saidHello : Bool) (tick : Nat) : Bool :=
  saidHello || bannerFires saidHello tick

/-- The value of the banner check on each reading of a sequence of clock
readings, threading the `said_hello` latch. -/
def bannerRun : Bool → List Nat → List Bool
  | _, [] => []
  | s, t :: ts => bannerFires s t :: bannerRun (bannerNext s t) ts

/-- The `said_hello` latch after a sequence of clock readings. -/
def bannerAfter : Bool → List Nat → Bool
  | s, [] => s
  | s, t :: ts => bannerAfter (bannerNext s t) ts

/-- The distinct diagnostic messages the program writes to the serial
port. `tickReport` stands for the formatted text holding the current tick
count and the last ADC reading (lines 163-172). -/
inductive Msg where
  | resetFailed
  | resetSucceeded (pulledUp : Bool)
  | hello
  | tickReport (tick reading : Nat)
  | searching
  | deviceFound
  | okBang
  | somethingOdd
  | noDevices
deriving DecidableEq, Repr

/-- Externally observable actions of one run: the one-wire bus reset, a
serial write of a diagnostic message, a `search_next` call, an ADC read,
and the echo of a (possibly shortened) transformed chunk. -/
inductive Ev where
  | resetBus
  | write (m : Msg)
  | searchNext
  | adcRead
  | echoed (bytes : List Nat)
deriving DecidableEq, Repr

/-- Control mode of the program: `running` is the normal loop,
`notifyForever` is the `loop { serial.write(b"Reset failed") }` arm of the
reset match, `panicked` is the halt reached through `panic_halt` after an
`unwrap` on an `Err`/`None`. -/
inductive Mode where
  | running
  | notifyForever
  | panicked
deriving DecidableEq, Repr

/-- The mutable locals of `main` that survive across loop iterations:
`said_hello`, `pin_state`, and `reading`, plus the control mode. -/
structure St where
  mode : Mode
  saidHello : Bool
  pinState : Bool
  reading : Nat
deriving DecidableEq, Repr

/-- What `serial.read(&mut buf)` yields in one iteration: `err` for
`Err(_)`, `ok bytes` for `Ok(count)` with the `count` bytes read
(`ok []` is `Ok(0)`). -/
inductive RdRes where
  | err
  | ok (bytes : List Nat)
deriving DecidableEq, Repr

/-- Per-iteration environment oracle: the two clock readings, the result
of the single `search_next` call (consulted only on the firing iteration),
whether the family-code `writeln!` into the heapless string succeeds,
`usb_dev.poll`, the read outcome, the outcomes of successive echo `write`
calls, and the ADC read result (`none` stands for `Err`, which the
`unwrap` of line 252 turns into a panic). -/
structure IterIn where
  tick : Nat
  tick2 : Nat
  searchRes : Except Unit (Option Nat)
  fmtOk : Bool
  pollRes : Bool
  readRes : RdRes
  writeRes : List WriteRes
  adcRes : Option Nat
deriving Repr

/-- Diagnostics and the search call on the banner-firing path (lines
160-214): write the greeting, the tick/ADC report, the searching line, then
call `search_next` once and `unwrap` it.  Returns the events in order and
whether the `unwrap` panicked.  On `Some(device)` the code writes the
"Device found" line and then either "OK!" or "Something odd happened"
depending on the `writeln!` result; on `None` it writes the no-devices
line. -/
def bannerPhase (reading : Nat) (inp : IterIn) : List Ev × Bool :=
  match inp.searchRes with
  | Except.error _ =>
      ([Ev.write Msg.hello, Ev.write (Msg.tickReport inp.tick2 reading),
        Ev.write Msg.searching, Ev.searchNext], true)
  | Except.ok (some _) =>
      ([Ev.write Msg.hello, Ev.write (Msg.tickReport inp.tick2 reading),
        Ev.write Msg.searching, Ev.searchNext, Ev.write Msg.deviceFound,
        Ev.write (if inp.fmtOk then Msg.okBang else Msg.somethingOdd)], false)
  | Except.ok none =>
      ([Ev.write Msg.hello, Ev.write (Msg.tickReport inp.tick2 reading),
        Ev.write Msg.searching, Ev.searchNext, Ev.write Msg.noDevices], false)

/-- The transport service block (lines 217-248): when `poll` reports work,
read; an `Err` or `Ok(0)` does nothing; otherwise uppercase the chunk and
run the write-retry loop, which toggles the LED once per `Ok`.  Returns
the emitted events and the new `pin_state`. -/
def echoPhase (pin : Bool) (inp : IterIn) : List Ev × Bool :=
  if inp.pollRes then
    match inp.readRes with
    | RdRes.err => ([], pin)
    | RdRes.ok bytes =>
        if bytes.isEmpty then ([], pin)
        else
          ([Ev.echoed (echoWrite (bytes.map make_ascii_uppercase) inp.writeRes pin).delivered],
           (echoWrite (bytes.map make_ascii_uppercase) inp.writeRes pin).led)
  else ([], pin)

/-- Tail of a loop iteration after the banner block (lines 217-256): the
transport service block followed by the conditional ADC refresh
`if said_hello == true { reading = adc.read(..).unwrap(); }`, where `sh`
is the value of `said_hello` after the banner block. -/
def stepRest (st : St) (sh : Bool) (inp : IterIn) (bannerEvs : List Ev) : St × List Ev :=
  if sh then
    match inp.adcRes with
    | none =>
        (⟨Mode.panicked, sh, (echoPhase st.pinState inp).2, st.reading⟩,
         bannerEvs ++ (echoPhase st.pinState inp).1 ++ [Ev.adcRead])
    | some v =>
        (⟨Mode.running, sh, (echoPhase st.pinState inp).2, v⟩,
         bannerEvs ++ (echoPhase st.pinState inp).1 ++ [Ev.adcRead])
  else
    (⟨Mode.running, sh, (echoPhase st.pinState inp).2, st.reading⟩,
     bannerEvs ++ (echoPhase st.pinState inp).1)

/-- One full iteration of the main `loop` (lines 155-257).  In
`notifyForever` mode the body is the reset-failure loop, which only writes
the failure message; in `panicked` mode the chip is halted and nothing
further happens. -/
def step (st : St) (inp : IterIn) : St × List Ev :=
  match st.mode with
  | Mode.panicked => (st, [])
  | Mode.notifyForever => (st, [Ev.write Msg.resetFailed])
  | Mode.running =>
      if bannerFires st.saidHello inp.tick then
        if (bannerPhase st.reading inp).2 then
          (⟨Mode.panicked, true, st.pinState, st.reading⟩, (bannerPhase st.reading inp).1)
        else
          stepRest st true inp (bannerPhase st.reading inp).1
      else
        stepRest st st.saidHello inp []

/-- Start-up behaviour from the bus reset on (lines 133-154): the
`wire.reset` match, whose `Err` arm enters the notify-forever loop and
whose `Ok` arm writes the success line, followed by the initial
`adc.read(..).unwrap()`, whose `Err` panics.  The locals start as
`said_hello = false` and `pin_state = false`. -/
def initMain (resetRes : Except Unit Bool) (adc0 : Option Nat) : St × List Ev :=
  match resetRes with
  | Except.error _ => (⟨Mode.notifyForever, false, false, 0⟩, [Ev.resetBus])
  | Except.ok pulledUp =>
      match adc0 with
      | none =>
          (⟨Mode.panicked, false, false, 0⟩,
           [Ev.resetBus, Ev.write (Msg.resetSucceeded pulledUp), Ev.adcRead])
      | some v =>
          (⟨Mode.running, false, false, v⟩,
           [Ev.resetBus, Ev.write (Msg.resetSucceeded pulledUp), Ev.adcRead])

/-- Run a sequence of loop iterations, collecting the emitted events. -/
def runSteps : St → List IterIn → St × List Ev
  | st, [] => (st, [])
  | st, i :: is =>
      ((runSteps (step st i).1 is).1, (step st i).2 ++ (runSteps (step st i).1 is).2)

/-- Modelled from the spec: "run the Device Search Engine to exhaustion,
emitting one diagnostic line per discovered DeviceAddress" — given the
successive results a bus would return from `search_next`, emit one
device-found line per address until the first `None`. -/
def specSearchLines (results : List (Option Nat)) : List Msg :=
  match results with
  | [] => []
  | some _ :: rest => Msg.deviceFound :: specSearchLines rest
  | none :: _ => []

/-- Modelled from the spec: the full report of an exhaustive scan — the
per-device lines, "or a no-devices line if the scan returns no
addresses". -/
def specSearchReport (results : List (Option Nat)) : List Msg :=
  if (specSearchLines results).isEmpty then [Msg.noDevices] else specSearchLines results

/-- Recognizer for the `search_next` call event. -/
def isSearchCall : Ev → Bool
  | Ev.searchNext => true
  | Ev.resetBus => false
  | Ev.write _ => false
  | Ev.adcRead => false
  | Ev.echoed _ => false

/-- Recognizer for the device-found diagnostic message. -/
def isDeviceMsg : Msg → Bool
  | Msg.deviceFound => true
  | Msg.resetFailed => false
  | Msg.resetSucceeded _ => false
  | Msg.hello => false
  | Msg.tickReport _ _ => false
  | Msg.searching => false
  | Msg.okBang => false
  | Msg.somethingOdd => false
  | Msg.noDevices => false

/-- Recognizer for a serial write of the device-found line. -/
def isDeviceLine : Ev → Bool
  | Ev.write m => isDeviceMsg m
  | Ev.resetBus => false
  | Ev.searchNext => false
  | Ev.adcRead => false
  | Ev.echoed _ => false

/-- Recognizer for the bus reset event. -/
def isResetEv : Ev → Bool
  | Ev.resetBus => true
  | Ev.write _ => false
  | Ev.searchNext => false
  | Ev.adcRead => false
  | Ev.echoed _ => false

/-- A firing-iteration input whose single search result is the first
device of a bus that holds two devices. -/
def fireInTwoDev : IterIn :=
  ⟨5000000, 5000002, Except.ok (some 1), true, false, RdRes.err, [], some 4⟩

/-- The two-device bus: successive `search_next` results. -/
def twoDevBus : List (Option Nat) := [some 1, some 2, none]

/-- A firing-iteration input whose search call fails with a bus error. -/
def fireInErr : IterIn :=
  ⟨5000000, 5000003, Except.error (), true, false, RdRes.err, [], some 4⟩

/-- A firing-iteration input on an empty bus. -/
def fireInNone : IterIn :=
  ⟨5000000, 5000001, Except.ok none, true, false, RdRes.err, [], some 4⟩

/-- An input whose ADC read fails. -/
def adcErrIn : IterIn :=
  ⟨0, 0, Except.ok none, true, false, RdRes.err, [], none⟩

/-! Helper lemmas about the write-retry loop. -/

theorem echoWrite_delivered_pre (chunk : List Nat) (o : List WriteRes) (p : Bool) :
    ∃ t, (echoWrite chunk o p).delivered ++ t = chunk := by
  induction o generalizing chunk p with
  | nil =>
      cases chunk with
      | nil => exact ⟨[], rfl⟩
      | cons a s => exact ⟨a :: s, rfl⟩
  | cons w rest ih =>
      cases chunk with
      | nil => exact ⟨[], rfl⟩
      | cons a s =>
          cases w with
          | ok len =>
              obtain ⟨t, ht⟩ := ih ((a :: s).drop len) (!p)
              refine ⟨t, ?_⟩
              simp only [echoWrite]
              rw [List.append_assoc, ht, List.take_append_drop]
          | err => exact ⟨a :: s, rfl⟩

theorem echoWrite_complete (chunk : List Nat) (o : List WriteRes) (p : Bool)
    (h : (echoWrite chunk o p).ended = LoopEnd.complete) :
    (echoWrite chunk o p).delivered = chunk := by
  induction o generalizing chunk p with
  | nil =>
      cases chunk with
      | nil => rfl
      | cons a s => simp [echoWrite] at h
  | cons w rest ih =>
      cases chunk with
      | nil => rfl
      | cons a s =>
          cases w with
          | ok len =>
              simp only [echoWrite] at h ⊢
              rw [ih ((a :: s).drop len) (!p) h, List.take_append_drop]
          | err => simp [echoWrite] at h

theorem echoWrite_dropped (chunk : List Nat) (o : List WriteRes) (p : Bool)
    (h : (echoWrite chunk o p).ended = LoopEnd.dropped) :
    WriteRes.err ∈ o := by
  induction o generalizing chunk p with
  | nil =>
      cases chunk with
      | nil => simp [echoWrite] at h
      | cons a s => simp [echoWrite] at h
  | cons w rest ih =>
      cases chunk with
      | nil => simp [echoWrite] at h
      | cons a s =>
          cases w with
          | ok len =>
              simp only [echoWrite] at h
              exact List.mem_cons_of_mem _ (ih ((a :: s).drop len) (!p) h)
          | err => exact List.mem_cons_self _ _

theorem echoWrite_led (chunk : List Nat) (o : List WriteRes) (p : Bool) :
    (echoWrite chunk o p).led = Bool.xor p (decide (okCount chunk o % 2 = 1)) := by
  induction o generalizing chunk p with
  | nil => cases chunk <;> simp [echoWrite, okCount]
  | cons w rest ih =>
      cases chunk with
      | nil => simp [echoWrite, okCount]
      | cons a s =>
          cases w with
          | ok len =>
              simp only [echoWrite, okCount]
              rw [ih ((a :: s).drop len) (!p)]
              rcases Nat.mod_two_eq_zero_or_one (okCount ((a :: s).drop len) rest) with h | h
              · have h2 : (okCount ((a :: s).drop len) rest + 1) % 2 = 1 := by omega
                simp [h, h2]
              · have h2 : (okCount ((a :: s).drop len) rest + 1) % 2 = 0 := by omega
                simp [h, h2]
          | err => simp [echoWrite, okCount]

theorem echoWrite_ended_of_pos (o : List WriteRes) (chunk : List Nat) (p : Bool)
    (hlen : chunk.length ≤ o.length) (hpos : ∀ l, WriteRes.ok l ∈ o → 0 < l) :
    (echoWrite chunk o p).ended ≠ LoopEnd.stillGoing := by
  induction o generalizing chunk p with
  | nil =>
      have : chunk = [] := List.length_eq_zero.mp (Nat.le_zero.mp hlen)
      subst this
      simp [echoWrite]
  | cons w rest ih =>
      cases chunk with
      | nil => simp [echoWrite]
      | cons a s =>
          cases w with
          | ok len =>
              simp only [echoWrite]
              apply ih
              · have hl : 0 < len := hpos len (List.mem_cons_self _ _)
                rw [List.length_drop]
                simp only [List.length_cons] at hlen ⊢
                omega
              · intro l hl
                exact hpos l (List.mem_cons_of_mem _ hl)
          | err => simp [echoWrite]

theorem echoWrite_ok0_replicate (n : Nat) (a : Nat) (s : List Nat) (p : Bool) :
    (echoWrite (a :: s) (List.replicate n (WriteRes.ok 0)) p).ended = LoopEnd.stillGoing := by
  induction n generalizing p with
  | zero => rfl
  | succ n ih => simpa [echoWrite, List.replicate] using ih (!p)

/-! Helper lemmas about the banner latch. -/

theorem bannerRun_latched (ts : List Nat) :
    bannerRun true ts = List.replicate ts.length false := by
  induction ts with
  | nil => rfl
  | cons t ts ih => simp [bannerRun, bannerFires, bannerNext, List.replicate, ih]

theorem bannerAfter_latched (ts : List Nat) : bannerAfter true ts = true := by
  induction ts with
  | nil => rfl
  | cons t ts ih => simpa [bannerAfter, bannerNext, bannerFires] using ih

theorem count_true_replicate_false (n : Nat) :
    (List.replicate n false).count true = 0 := by
  induction n with
  | zero => rfl
  | succ n ih => simp [List.replicate, List.count_cons, ih]

theorem getD_replicate_false (n i : Nat) :
    (List.replicate n false).getD i false = false := by
  induction n generalizing i with
  | zero => cases i <;> rfl
  | succ n ih =>
      cases i with
      | zero => rfl
      | succ i => exact ih i

theorem bannerRun_cons_ge (t : Nat) (ts : List Nat) (ht : 5000000 ≤ t) :
    bannerRun false (t :: ts) = true :: List.replicate ts.length false := by
  simp [bannerRun, bannerFires, bannerNext, ht, bannerRun_latched]

theorem bannerRun_cons_lt (t : Nat) (ts : List Nat) (ht : ¬ 5000000 ≤ t) :
    bannerRun false (t :: ts) = false :: bannerRun false ts := by
  simp [bannerRun, bannerFires, bannerNext, ht]

theorem bannerRun_count_one (ts : List Nat) (hex : ∃ t ∈ ts, 5000000 ≤ t) :
    (bannerRun false ts).count true = 1 := by
  induction ts with
  | nil => simp at hex
  | cons t ts ih =>
      by_cases ht : 5000000 ≤ t
      · rw [bannerRun_cons_ge t ts ht]
        simp [List.count_cons, count_true_replicate_false]
      · rw [bannerRun_cons_lt t ts ht]
        have hex' : ∃ x ∈ ts, 5000000 ≤ x := by
          rcases hex with ⟨x, hx, hxe⟩
          rcases List.mem_cons.mp hx with h | h
          · subst h; exact absurd hxe ht
          · exact ⟨x, h, hxe⟩
        simp [List.count_cons, ih hex']

theorem bannerRun_first_cross (ts : List Nat) (i : Nat) (hi : i < ts.length) :
    ((bannerRun false ts).getD i false = true ↔
      (5000000 ≤ ts.getD i 0 ∧ ∀ j, j < i → ts.getD j 0 < 5000000)) := by
  induction ts generalizing i with
  | nil => simp at hi
  | cons t ts ih =>
      by_cases ht : 5000000 ≤ t
      · rw [bannerRun_cons_ge t ts ht]
        cases i with
        | zero => simp [List.getD_cons_zero, ht]
        | succ i =>
            rw [List.getD_cons_succ, getD_replicate_false]
            constructor
            · intro h; exact Bool.noConfusion h
            · rintro ⟨h1, h2⟩
              have h0 := h2 0 (Nat.succ_pos i)
              rw [List.getD_cons_zero] at h0
              omega
      · rw [bannerRun_cons_lt t ts ht]
        cases i with
        | zero => simp [List.getD_cons_zero, ht]
        | succ i =>
            rw [List.getD_cons_succ, List.getD_cons_succ]
            rw [ih i (by simpa using Nat.lt_of_succ_lt_succ (by simpa using hi))]
            constructor
            · rintro ⟨h1, h2⟩
              refine ⟨h1, ?_⟩
              intro j hj
              cases j with
              | zero =>
                  rw [List.getD_cons_zero]
                  omega
              | succ j =>
                  rw [List.getD_cons_succ]
                  exact h2 j (Nat.lt_of_succ_lt_succ hj)
            · rintro ⟨h1, h2⟩
              refine ⟨h1, ?_⟩
              intro j hj
              have := h2 (j + 1) (Nat.succ_lt_succ hj)
              rwa [List.getD_cons_succ] at this

/-! Helper lemmas about the loop step machine. -/

theorem echoPhase_shape (p : Bool) (inp : IterIn) :
    (echoPhase p inp).1 = [] ∨ ∃ bs, (echoPhase p inp).1 = [Ev.echoed bs] := by
  by_cases hp : inp.pollRes
  · cases hr : inp.readRes with
    | err => left; simp [echoPhase, hp, hr]
    | ok bytes =>
        by_cases hb : bytes.isEmpty
        · left; simp [echoPhase, hp, hr, hb]
        · right
          refine ⟨(echoWrite (bytes.map make_ascii_uppercase) inp.writeRes p).delivered, ?_⟩
          simp [echoPhase, hp, hr, hb]
  · left; simp [echoPhase, hp]

theorem step_notify (st : St) (inp : IterIn) (h : st.mode = Mode.notifyForever) :
    step st inp = (st, [Ev.write Msg.resetFailed]) := by
  obtain ⟨m, sh, pin, rd⟩ := st
  simp only at h
  subst h
  rfl

theorem step_panicked (st : St) (inp : IterIn) (h : st.mode = Mode.panicked) :
    step st inp = (st, []) := by
  obtain ⟨m, sh, pin, rd⟩ := st
  simp only at h
  subst h
  rfl

theorem runSteps_notify (st : St) (h : st.mode = Mode.notifyForever) (is : List IterIn) :
    runSteps st is = (st, List.replicate is.length (Ev.write Msg.resetFailed)) := by
  induction is with
  | nil => rfl
  | cons i is ih =>
      simp [runSteps, step_notify st i h, ih, List.replicate]

theorem bannerPhase_no_reset (rd : Nat) (inp : IterIn) :
    Ev.resetBus ∉ (bannerPhase rd inp).1 := by
  cases hsr : inp.searchRes with
  | error e => simp [bannerPhase, hsr]
  | ok o =>
      cases o with
      | none => simp [bannerPhase, hsr]
      | some d =>
          cases hf : inp.fmtOk <;> simp [bannerPhase, hsr, hf]

theorem stepRest_no_reset (st : St) (sh : Bool) (inp : IterIn) (evs : List Ev)
    (h : Ev.resetBus ∉ evs) : Ev.resetBus ∉ (stepRest st sh inp evs).2 := by
  rcases echoPhase_shape st.pinState inp with he | ⟨bs, he⟩ <;>
    cases sh <;>
    [skip; cases hadc : inp.adcRes; skip; cases hadc : inp.adcRes] <;>
    simp_all [stepRest, List.mem_append]

theorem step_no_reset (st : St) (inp : IterIn) : Ev.resetBus ∉ (step st inp).2 := by
  obtain ⟨m, sh, pin, rd⟩ := st
  cases m with
  | panicked => simp [step]
  | notifyForever => simp [step]
  | running =>
      simp only [step]
      by_cases hf : bannerFires sh inp.tick
      · rw [if_pos hf]
        by_cases hb : (bannerPhase rd inp).2
        · rw [if_pos hb]
          exact bannerPhase_no_reset rd inp
        · rw [if_neg hb]
          exact stepRest_no_reset _ _ _ _ (bannerPhase_no_reset rd inp)
      · rw [if_neg hf]
        exact stepRest_no_reset _ _ _ _ (by simp)

theorem echoPhase_countP (p : Bool) (inp : IterIn) (q : Ev → Bool)
    (hq : ∀ bs, q (Ev.echoed bs) = false) :
    (echoPhase p inp).1.countP q = 0 := by
  rcases echoPhase_shape p inp with he | ⟨bs, he⟩ <;> simp [he, List.countP_cons, hq]

theorem echoPhase_not_mem (p : Bool) (inp : IterIn) (e : Ev)
    (h : ∀ bs, e ≠ Ev.echoed bs) : e ∉ (echoPhase p inp).1 := by
  rcases echoPhase_shape p inp with he | ⟨bs, he⟩ <;> simp [he, h]

theorem stepRest_countP (st : St) (sh : Bool) (inp : IterIn) (evs : List Ev)
    (q : Ev → Bool) (hq1 : ∀ bs, q (Ev.echoed bs) = false) (hq2 : q Ev.adcRead = false) :
    (stepRest st sh inp evs).2.countP q = evs.countP q := by
  have hech := echoPhase_countP st.pinState inp q hq1
  cases sh with
  | false => simp [stepRest, List.countP_append, hech]
  | true =>
      cases hadc : inp.adcRes <;>
        simp [stepRest, hadc, List.countP_append, List.countP_cons, hech, hq2]

theorem stepRest_mem_iff (st : St) (sh : Bool) (inp : IterIn) (evs : List Ev)
    (e : Ev) (h1 : ∀ bs, e ≠ Ev.echoed bs) (h2 : e ≠ Ev.adcRead) :
    (e ∈ (stepRest st sh inp evs).2 ↔ e ∈ evs) := by
  have hech := echoPhase_not_mem st.pinState inp e h1
  cases sh with
  | false => simp [stepRest, List.mem_append, hech]
  | true =>
      cases hadc : inp.adcRes <;>
        simp [stepRest, hadc, List.mem_append, List.mem_cons, hech, h2]

theorem stepRest_mode (st : St) (sh : Bool) (inp : IterIn) (evs : List Ev) :
    (stepRest st sh inp evs).1.mode =
      (if sh ∧ inp.adcRes = none then Mode.panicked else Mode.running) := by
  cases sh with
  | false => simp [stepRest]
  | true => cases hadc : inp.adcRes <;> simp [stepRest, hadc]

/-! Claim theorems. -/

set_option maxRecDepth 4000 in
/-- C7: for every byte b of a read chunk the echoed byte equals the ASCII
uppercase of b when b is an ASCII letter (a lowercase letter loses bit
0x20, an uppercase letter is already its own uppercase) and equals b
unchanged otherwise; in particular the bytes of "Hi There!1" map to the
bytes of "HI THERE!1". -/
theorem uppercase_transform :
    (∀ b : Nat, b < 256 →
      ((97 ≤ b ∧ b ≤ 122) → make_ascii_uppercase b = b - 32) ∧
      ((65 ≤ b ∧ b ≤ 90) → make_ascii_uppercase b = b) ∧
      (isAsciiLetter b = false → make_ascii_uppercase b = b)) ∧
    [72, 105, 32, 84, 104, 101, 114, 101, 33, 49].map make_ascii_uppercase
      = [72, 73, 32, 84, 72, 69, 82, 69, 33, 49] :=
  ⟨by decide, by decide⟩

/-- C7 witness: the lowercase letter 0x68 is uppercased by subtracting
32. -/
theorem uppercase_transform_witness : make_ascii_uppercase 104 = 104 - 32 :=
  (uppercase_transform.1 104 (by decide)).1 (by decide)

/-- C5: over any non-decreasing sequence of clock readings that eventually
reaches the 5,000,000-tick threshold, the banner check
`!said_hello && ticks >= 5_000_000` is true on exactly one iteration,
namely the first whose reading is at or past the threshold, and is false
on every other iteration; moreover once `said_hello` is latched it stays
latched for any further readings. -/
theorem banner_one_shot (ts : List Nat) (hmono : List.Chain' (· ≤ ·) ts)
    (hex : ∃ t ∈ ts, 5000000 ≤ t) :
    (bannerRun false ts).count true = 1 ∧
    (∀ i, i < ts.length →
      ((bannerRun false ts).getD i false = true ↔
        (5000000 ≤ ts.getD i 0 ∧ ∀ j, j < i → ts.getD j 0 < 5000000))) ∧
    (∀ us, bannerAfter true us = true) :=
  ⟨bannerRun_count_one ts hex, fun i hi => bannerRun_first_cross ts i hi,
   bannerAfter_latched⟩

/-- C5 witness: on the reading sequence [0, 5000000] the check fires
exactly once. -/
theorem banner_one_shot_witness :
    (bannerRun false [0, 5000000]).count true = 1 :=
  (banner_one_shot [0, 5000000]
    (List.chain'_cons.mpr ⟨by omega, List.chain'_singleton _⟩)
    ⟨5000000, by decide, by decide⟩).1

/-- C6: for every transformed chunk and every sequence of write outcomes,
the bytes accepted across the retries form an in-order prefix of the chunk
(no reordering, no duplication); if the loop exits normally the whole
chunk was delivered, and if it exits by `break` an `Err` outcome
occurred, dropping the unsent suffix. -/
theorem echo_retry_in_order (chunk : List Nat) (o : List WriteRes) (p : Bool) :
    (∃ t, (echoWrite chunk o p).delivered ++ t = chunk) ∧
    ((echoWrite chunk o p).ended = LoopEnd.complete →
      (echoWrite chunk o p).delivered = chunk) ∧
    ((echoWrite chunk o p).ended = LoopEnd.dropped → WriteRes.err ∈ o) :=
  ⟨echoWrite_delivered_pre chunk o p, echoWrite_complete chunk o p,
   echoWrite_dropped chunk o p⟩

/-- C6 witness: a two-byte chunk accepted in one full write is delivered
whole. -/
theorem echo_retry_in_order_witness :
    (echoWrite [1, 2] [WriteRes.ok 2] false).delivered = [1, 2] :=
  (echo_retry_in_order [1, 2] [WriteRes.ok 2] false).2.1 (by decide)

/-- C2 counterexample: with chunk [72] and write outcomes Ok(0) then
Ok(1), exactly one non-empty write is accepted (M = 1), so the claim
predicts a final indicator of initial XOR true = true; the code, which
toggles on every Ok including Ok(0), ends with the indicator back at
false. -/
theorem led_toggle_cex :
    (echoWrite [72] [WriteRes.ok 0, WriteRes.ok 1] false).led = false ∧
    nonzeroOkCount [72] [WriteRes.ok 0, WriteRes.ok 1] = 1 ∧
    Bool.xor false (decide ((1 : Nat) % 2 = 1)) = true := by
  decide

/-- C2 (amended): the indicator is toggled once per write call that
returns Ok of any length, Ok(0) included; after M processed Ok results
the indicator equals its initial value XOR (M mod 2 == 1). -/
theorem led_toggle_per_ok (chunk : List Nat) (o : List WriteRes) (p : Bool) :
    (echoWrite chunk o p).led = Bool.xor p (decide (okCount chunk o % 2 = 1)) :=
  echoWrite_led chunk o p

/-- C2 witness: one accepted write flips the indicator once. -/
theorem led_toggle_per_ok_witness :
    (echoWrite [72] [WriteRes.ok 1] false).led
      = Bool.xor false (decide (okCount [72] [WriteRes.ok 1] % 2 = 1)) :=
  led_toggle_per_ok [72] [WriteRes.ok 1] false

/-- C9 counterexample: against a transport that answers every write with
Ok(0) on the non-empty suffix [72], no finite number of loop iterations
ever finishes the retry loop — the loop does not terminate, contrary to
the claim that it terminates for every sequence of write outcomes,
including repeated Ok(0). -/
theorem write_retry_nontermination_cex :
    ¬ terminatesOn [72] (fun _ => WriteRes.ok 0) := by
  rintro ⟨n, hn⟩
  apply hn
  have hmap : (List.range n).map (fun _ => WriteRes.ok 0)
      = List.replicate n (WriteRes.ok 0) := by
    simp [List.map_const', List.length_range]
  rw [hmap]
  exact echoWrite_ok0_replicate n 72 [] false

/-- C9 (amended): the retry loop terminates whenever the write outcomes
make progress — if every Ok outcome accepts at least one byte, then after
at most as many outcomes as the chunk has bytes the loop has ended, by
emptying the suffix or by an error; it does not terminate under perpetual
Ok(0) on a non-empty suffix. -/
theorem write_retry_terminates (chunk : List Nat) (o : List WriteRes) (p : Bool)
    (hlen : chunk.length ≤ o.length) (hpos : ∀ l, WriteRes.ok l ∈ o → 0 < l) :
    (echoWrite chunk o p).ended ≠ LoopEnd.stillGoing :=
  echoWrite_ended_of_pos o chunk p hlen hpos

/-- C9 witness: a two-byte chunk against one accepting write and one
error ends the loop. -/
theorem write_retry_terminates_witness :
    (echoWrite [72, 73] [WriteRes.ok 1, WriteRes.err] false).ended
      ≠ LoopEnd.stillGoing :=
  write_retry_terminates [72, 73] [WriteRes.ok 1, WriteRes.err] false (by decide)
    (by intro l hl; simp [List.mem_cons] at hl; omega)

/-- C8: if the bus reset fails, the program enters the notify-forever
mode; over any number of further iterations and any environment it stays
there, and the only action of each iteration is the attempt to write the
reset-failure message — no device enumeration, no analog sampling, and no
echo servicing ever occurs. -/
theorem bus_reset_failure_notify_forever (a : Option Nat) (is : List IterIn) :
    (runSteps (initMain (Except.error ()) a).1 is).1.mode = Mode.notifyForever ∧
    (runSteps (initMain (Except.error ()) a).1 is).2
      = List.replicate is.length (Ev.write Msg.resetFailed) := by
  have h := runSteps_notify (initMain (Except.error ()) a).1 rfl is
  rw [h]
  exact ⟨rfl, rfl⟩

/-- C8 witness: a concrete failed-reset run of three iterations writes the
failure message three times and nothing else. -/
theorem bus_reset_failure_notify_forever_witness :
    (runSteps (initMain (Except.error ()) (some 0)).1 [adcErrIn, adcErrIn, adcErrIn]).2
      = List.replicate 3 (Ev.write Msg.resetFailed) :=
  (bus_reset_failure_notify_forever (some 0) [adcErrIn, adcErrIn, adcErrIn]).2

/-- C10: every ADC sample is obtained through `unwrap`, so an `Err` from
the ADC panics the program: an `Err` on the startup sample leaves start-up
in the panicked mode, an `Err` on any iteration whose `said_hello` is (or
just became) true panics that iteration, and a panicked program does
nothing ever after (`panic_halt`), in particular it never enters the
notify-forever degraded mode. -/
theorem adc_error_panics :
    (∀ pu, (initMain (Except.ok pu) none).1.mode = Mode.panicked) ∧
    (∀ st inp, st.mode = Mode.running → (st.saidHello = true ∨ 5000000 ≤ inp.tick) →
      inp.adcRes = none → (step st inp).1.mode = Mode.panicked) ∧
    (∀ st inp, st.mode = Mode.panicked → step st inp = (st, [])) := by
  refine ⟨fun pu => rfl, ?_, fun st inp h => step_panicked st inp h⟩
  intro st inp h1 h2 h3
  obtain ⟨m, sh, pin, rd⟩ := st
  simp only at h1 h2
  subst h1
  cases sh with
  | true =>
      have hf : bannerFires true inp.tick = false := by simp [bannerFires]
      simp only [step, hf, if_neg Bool.false_ne_true]
      rw [stepRest_mode]
      simp [h3]
  | false =>
      rcases h2 with h2 | h2
      · exact absurd h2 (by simp)
      · have hf : bannerFires false inp.tick = true := by simp [bannerFires, h2]
        simp only [step, hf, if_true]
        by_cases hb : (bannerPhase rd inp).2
        · rw [if_pos hb]
        · rw [if_neg hb, stepRest_mode]
          simp [h3]

/-- C10 witness: an ADC error on an iteration after the banner has fired
panics the program. -/
theorem adc_error_panics_witness :
    (step ⟨Mode.running, true, false, 3⟩ adcErrIn).1.mode = Mode.panicked :=
  adc_error_panics.2.1 ⟨Mode.running, true, false, 3⟩ adcErrIn rfl (Or.inl rfl) rfl

/-- C4 counterexample: in a run whose reset succeeds, the bus reset event
is already in the start-up trace, while `said_hello` is still false — the
banner has not fired; and the banner-firing iteration emits a search call
but no bus reset.  This contradicts the claim that `reset_bus` is invoked
as part of the banner's Fired transition and not before it fires. -/
theorem reset_before_banner_cex :
    Ev.resetBus ∈ (initMain (Except.ok true) (some 3)).2 ∧
    (initMain (Except.ok true) (some 3)).1.saidHello = false ∧
    Ev.resetBus ∉ (step ⟨Mode.running, false, false, 3⟩ fireInNone).2 ∧
    Ev.searchNext ∈ (step ⟨Mode.running, false, false, 3⟩ fireInNone).2 := by
  decide

/-- C4 (amended): the bus reset/presence sequence runs exactly once,
during start-up before the main loop begins — hence before the banner can
fire — and no loop iteration, the banner-firing one included, ever
performs a bus reset. -/
theorem reset_only_in_init (rr : Except Unit Bool) (a : Option Nat)
    (st : St) (inp : IterIn) :
    (initMain rr a).2.countP isResetEv = 1 ∧ Ev.resetBus ∉ (step st inp).2 := by
  constructor
  · cases rr with
    | error e => simp [initMain, List.countP_cons, List.countP_nil, isResetEv]
    | ok pu =>
        cases a <;> simp [initMain, List.countP_cons, List.countP_nil, isResetEv]
  · exact step_no_reset st inp

/-- C4 witness: the amended statement at a concrete successful start-up
and a concrete banner-firing iteration. -/
theorem reset_only_in_init_witness :
    (initMain (Except.ok true) (some 3)).2.countP isResetEv = 1 ∧
    Ev.resetBus ∉ (step ⟨Mode.running, false, false, 3⟩ fireInNone).2 :=
  reset_only_in_init (Except.ok true) (some 3) ⟨Mode.running, false, false, 3⟩ fireInNone

/-- C3 counterexample: on the banner-firing iteration with a bus error
from `search_next`, the program moves to the panicked mode — the `unwrap`
panics and `panic_halt` halts the chip, after which a further iteration
does nothing.  This contradicts the claim that a search-time BusError is
absorbed and does not halt or crash the program. -/
theorem search_error_halts_cex :
    (step ⟨Mode.running, false, false, 3⟩ fireInErr).1.mode = Mode.panicked ∧
    step (step ⟨Mode.running, false, false, 3⟩ fireInErr).1 fireInErr
      = ((step ⟨Mode.running, false, false, 3⟩ fireInErr).1, []) := by
  decide

/-- C3 (amended): both BusError sites are terminal, in different ways — a
reset failure puts the program into the notify-forever degraded mode,
while a `search_next` error on the firing iteration panics and halts the
program; neither is absorbed. -/
theorem bus_error_terminal (st : St) (inp : IterIn) (a : Option Nat)
    (h1 : st.mode = Mode.running) (h2 : st.saidHello = false)
    (h3 : 5000000 ≤ inp.tick) (h4 : ∃ e, inp.searchRes = Except.error e) :
    (initMain (Except.error ()) a).1.mode = Mode.notifyForever ∧
    (step st inp).1.mode = Mode.panicked := by
  obtain ⟨e, he⟩ := h4
  refine ⟨rfl, ?_⟩
  obtain ⟨m, sh, pin, rd⟩ := st
  simp only at h1 h2
  subst h1
  subst h2
  have hf : bannerFires false inp.tick = true := by simp [bannerFires, h3]
  have hbp : (bannerPhase rd inp).2 = true := by simp [bannerPhase, he]
  simp [step, hf, hbp]

/-- C3 witness: the amended statement at a concrete erroring search. -/
theorem bus_error_terminal_witness :
    (step ⟨Mode.running, false, false, 3⟩ fireInErr).1.mode = Mode.panicked :=
  (bus_error_terminal ⟨Mode.running, false, false, 3⟩ fireInErr (some 0) rfl rfl
    (by decide) ⟨(), rfl⟩).2

/-- C1 counterexample: on a bus holding two devices (successive search
results `some 1`, `some 2`, `none`), the banner-firing iteration makes
exactly one `search_next` call and emits exactly one device line, while
the exhaustive scan the claim describes would emit two device lines — the
code does not run the search to exhaustion. -/
theorem search_once_cex :
    (step ⟨Mode.running, false, false, 3⟩ fireInTwoDev).2.countP isSearchCall = 1 ∧
    (step ⟨Mode.running, false, false, 3⟩ fireInTwoDev).2.countP isDeviceLine = 1 ∧
    (specSearchReport twoDevBus).countP isDeviceMsg = 2 := by
  decide

/-- C1 (amended): on the banner-firing iteration, after the start-up bus
reset succeeded, the orchestrator calls `search_next` exactly once: a
`Some` result yields exactly one device-found line and no no-devices line,
a `None` result yields the no-devices line and no device line, and an
`Err` result panics the program via `unwrap`. -/
theorem search_called_once (st : St) (inp : IterIn)
    (h1 : st.mode = Mode.running) (h2 : st.saidHello = false)
    (h3 : 5000000 ≤ inp.tick) :
    (step st inp).2.countP isSearchCall = 1 ∧
    (∀ d, inp.searchRes = Except.ok (some d) →
      ((step st inp).2.countP isDeviceLine = 1 ∧
        Ev.write Msg.noDevices ∉ (step st inp).2)) ∧
    (inp.searchRes = Except.ok none →
      (Ev.write Msg.noDevices ∈ (step st inp).2 ∧
        (step st inp).2.countP isDeviceLine = 0)) ∧
    (∀ e, inp.searchRes = Except.error e → (step st inp).1.mode = Mode.panicked) := by
  obtain ⟨m, sh, pin, rd⟩ := st
  simp only at h1 h2
  subst h1
  subst h2
  have hf : bannerFires false inp.tick = true := by simp [bannerFires, h3]
  cases hsr : inp.searchRes with
  | error e =>
      have hbp : bannerPhase rd inp
          = ([Ev.write Msg.hello, Ev.write (Msg.tickReport inp.tick2 rd),
              Ev.write Msg.searching, Ev.searchNext], true) := by
        simp [bannerPhase, hsr]
      have hstep : step ⟨Mode.running, false, pin, rd⟩ inp
          = (⟨Mode.panicked, true, pin, rd⟩,
             [Ev.write Msg.hello, Ev.write (Msg.tickReport inp.tick2 rd),
              Ev.write Msg.searching, Ev.searchNext]) := by
        simp [step, hf, hbp]
      refine ⟨?_, ?_, ?_, ?_⟩
      · rw [hstep]
        simp [List.countP_cons, List.countP_nil, isSearchCall]
      · intro d hd
        simp at hd
      · intro hd
        simp at hd
      · intro e' he
        rw [hstep]
  | ok o =>
      cases o with
      | some d =>
          cases hfm : inp.fmtOk with
          | true =>
              have hbp : bannerPhase rd inp
                  = ([Ev.write Msg.hello, Ev.write (Msg.tickReport inp.tick2 rd),
                      Ev.write Msg.searching, Ev.searchNext, Ev.write Msg.deviceFound,
                      Ev.write Msg.okBang], false) := by
                simp [bannerPhase, hsr, hfm]
              have hstep : step ⟨Mode.running, false, pin, rd⟩ inp
                  = stepRest ⟨Mode.running, false, pin, rd⟩ true inp
                      [Ev.write Msg.hello, Ev.write (Msg.tickReport inp.tick2 rd),
                       Ev.write Msg.searching, Ev.searchNext, Ev.write Msg.deviceFound,
                       Ev.write Msg.okBang] := by
                simp [step, hf, hbp]
              refine ⟨?_, ?_, ?_, ?_⟩
              · rw [hstep, stepRest_countP _ _ _ _ isSearchCall (fun bs => rfl) rfl]
                simp [List.countP_cons, List.countP_nil, isSearchCall]
              · intro d' hd
                refine ⟨?_, ?_⟩
                · rw [hstep, stepRest_countP _ _ _ _ isDeviceLine (fun bs => rfl) rfl]
                  simp [List.countP_cons, List.countP_nil, isDeviceLine, isDeviceMsg]
                · rw [hstep,
                    stepRest_mem_iff _ _ _ _ (Ev.write Msg.noDevices)
                      (fun bs => by simp) (by simp)]
                  simp
              · intro hd
                simp at hd
              · intro e' he
                simp at he
          | false =>
              have hbp : bannerPhase rd inp
                  = ([Ev.write Msg.hello, Ev.write (Msg.tickReport inp.tick2 rd),
                      Ev.write Msg.searching, Ev.searchNext, Ev.write Msg.deviceFound,
                      Ev.write Msg.somethingOdd], false) := by
                simp [bannerPhase, hsr, hfm]
              have hstep : step ⟨Mode.running, false, pin, rd⟩ inp
                  = stepRest ⟨Mode.running, false, pin, rd⟩ true inp
                      [Ev.write Msg.hello, Ev.write (Msg.tickReport inp.tick2 rd),
                       Ev.write Msg.searching, Ev.searchNext, Ev.write Msg.deviceFound,
                       Ev.write Msg.somethingOdd] := by
                simp [step, hf, hbp]
              refine ⟨?_, ?_, ?_, ?_⟩
              · rw [hstep, stepRest_countP _ _ _ _ isSearchCall (fun bs => rfl) rfl]
                simp [List.countP_cons, List.countP_nil, isSearchCall]
              · intro d' hd
                refine ⟨?_, ?_⟩
                · rw [hstep, stepRest_countP _ _ _ _ isDeviceLine (fun bs => rfl) rfl]
                  simp [List.countP_cons, List.countP_nil, isDeviceLine, isDeviceMsg]
                · rw [hstep,
                    stepRest_mem_iff _ _ _ _ (Ev.write Msg.noDevices)
                      (fun bs => by simp) (by simp)]
                  simp
              · intro hd
                simp at hd
              · intro e' he
                simp at he
      | none =>
          have hbp : bannerPhase rd inp
              = ([Ev.write Msg.hello, Ev.write (Msg.tickReport inp.tick2 rd),
                  Ev.write Msg.searching, Ev.searchNext, Ev.write Msg.noDevices],
                 false) := by
            simp [bannerPhase, hsr]
          have hstep : step ⟨Mode.running, false, pin, rd⟩ inp
              = stepRest ⟨Mode.running, false, pin, rd⟩ true inp
                  [Ev.write Msg.hello, Ev.write (Msg.tickReport inp.tick2 rd),
                   Ev.write Msg.searching, Ev.searchNext, Ev.write Msg.noDevices] := by
            simp [step, hf, hbp]
          refine ⟨?_, ?_, ?_, ?_⟩
          · rw [hstep, stepRest_countP _ _ _ _ isSearchCall (fun bs => rfl) rfl]
            simp [List.countP_cons, List.countP_nil, isSearchCall]
          · intro d hd
            simp at hd
          · intro hd
            refine ⟨?_, ?_⟩
            · rw [hstep,
                stepRest_mem_iff _ _ _ _ (Ev.write Msg.noDevices)
                  (fun bs => by simp) (by simp)]
              simp
            · rw [hstep, stepRest_countP _ _ _ _ isDeviceLine (fun bs => rfl) rfl]
              simp [List.countP_cons, List.countP_nil, isDeviceLine, isDeviceMsg]
          · intro e' he
            simp at he
/-- C1 witness: the amended statement at a concrete firing iteration whose
single search result is a device. -/
theorem search_called_once_witness :
    (step ⟨Mode.running, false, false, 3⟩ fireInTwoDev).2.countP isSearchCall = 1 :=
  (search_called_once ⟨Mode.running, false, false, 3⟩ fireInTwoDev rfl rfl
    (by decide)).1

end Pico
